import Mathlib

/-!
Verification of the `yubikey-tools` package against its specification.

The repository only ships `src/__init__.py` (version metadata, a wildcard
re-export of the unseen internal module `src.core`, and an `__all__`
assignment).  The package-initialization semantics are embedded directly
from that file.  Everything the spec describes for `src.core` (transport,
APDU codec, session, slot managers, device registry) is absent from the
sources, so those components are modelled from the spec, each such
definition marked `Modelled from the spec:`.
-/

namespace YubikeyTools

/-! ## Package initialization (`src/__init__.py`) -/

/-- Modelled from the spec: the unseen internal module `src.core` ("a wildcard
re-export of an unseen internal module (`src.core`)").  `importable` says
whether `import src.core` succeeds in the ambient environment; `exports` is
the ordered list of (name, value) bindings that `from src.core import *`
would introduce when the import succeeds. -/
structure CoreEnv where
  importable : Bool
  exports : List (String × String)

/-- Python-level errors relevant to module initialization. -/
inductive PyErr where
  | importError
  deriving DecidableEq, Repr

/-- Assignment in a module namespace: a later binding shadows an earlier one
(bindings are kept as an association list, most recent first). -/
def setVar (ns : List (String × String)) (n v : String) : List (String × String) :=
  (n, v) :: ns

/-- Name lookup in a module namespace (most recent binding wins). -/
def lookupVar (ns : List (String × String)) (n : String) : Option String :=
  List.lookup n ns

/-- The state of the `src` module object after a successful initialization:
its namespace and the value assigned to `__all__`. -/
structure SrcModule where
  ns : List (String × String)
  allNames : List String
  deriving DecidableEq, Repr

/-- Embedding of `src/__init__.py`, statement by statement:
`__version__ = "0.1.0"`; `__author__ = "Elvis Nuno"`; `__license__ = "MIT"`;
`from src.core import *` (raises `ImportError` when `src.core` is not
importable, aborting initialization); finally
`__all__ = ["__version__", "__author__", "__license__"]`. -/
def srcInit (core : CoreEnv) : Except PyErr SrcModule :=
  let ns := setVar (setVar (setVar [] "__version__" "0.1.0") "__author__" "Elvis Nuno")
      "__license__" "MIT"
  if core.importable then
    let ns := core.exports.foldl (fun a p => setVar a p.1 p.2) ns
    Except.ok ⟨ns, ["__version__", "__author__", "__license__"]⟩
  else
    Except.error PyErr.importError

/-- Python's `from m import *` when `m.__all__` is defined: binds exactly the
names listed in `__all__`, each to its current value in `m`'s namespace. -/
def starImport (m : SrcModule) : List (String × Option String) :=
  m.allNames.map (fun n => (n, lookupVar m.ns n))

/-- The result of `from src import *` in an environment `core`, when the
package imports successfully. -/
def srcStar (core : CoreEnv) : Option (List (String × Option String)) :=
  (srcInit core).toOption.map starImport

/-- A Python name beginning with an underscore (such names are excluded from
a wildcard import unless the source module's `__all__` lists them). -/
def isPrivateName (n : String) : Bool := n.data.head? = some '_'

theorem lookup_setVar (ns : List (String × String)) (m n v : String) :
    lookupVar (setVar ns m v) n = if n = m then some v else lookupVar ns n := by
  simp [lookupVar, setVar, List.lookup]
  split
  · simp_all
  · simp_all [beq_iff_eq]

theorem lookup_foldl_private (exports : List (String × String))
    (h : ∀ p ∈ exports, isPrivateName p.1 = false)
    (ns : List (String × String)) (n : String) (hn : isPrivateName n = true) :
    lookupVar (exports.foldl (fun a p => setVar a p.1 p.2) ns) n = lookupVar ns n := by
  induction exports generalizing ns with
  | nil => rfl
  | cons p rest ih =>
      have hp : isPrivateName p.1 = false := h p (List.mem_cons_self p rest)
      have hrest : ∀ q ∈ rest, isPrivateName q.1 = false :=
        fun q hq => h q (List.mem_cons_of_mem p hq)
      rw [List.foldl_cons, ih hrest, lookup_setVar]
      have : n ≠ p.1 := by
        intro he
        rw [he, hp] at hn
        exact Bool.false_ne_true hn
      simp [this]

/-- C1: importing the package evaluates `from src.core import *` at
initialization time; whenever `src.core` is not importable, package
initialization raises `ImportError` and no module object (hence no name of
the package) is produced. -/
theorem import_fails_without_core (core : CoreEnv)
    (h : core.importable = false) :
    srcInit core = Except.error PyErr.importError := by
  simp [srcInit, h]

theorem import_fails_without_core_witness :
    (CoreEnv.mk false []).importable = false ∧
      srcInit (CoreEnv.mk false []) = Except.error PyErr.importError :=
  ⟨rfl, import_fails_without_core (CoreEnv.mk false []) rfl⟩

/-- C10: for every environment in which `src.core` is importable and its
star-exports follow Python's default (no names starting with `_`),
`from src import *` binds exactly `__version__`, `__author__` and
`__license__` — no name re-exported from `src.core` — with the constant
values `"0.1.0"`, `"Elvis Nuno"` and `"MIT"`, because `__all__` is assigned
exactly that three-element list after the wildcard re-export. -/
theorem star_import_bindings (core : CoreEnv)
    (himp : core.importable = true)
    (hpub : ∀ p ∈ core.exports, isPrivateName p.1 = false) :
    srcStar core = some
      [("__version__", some "0.1.0"), ("__author__", some "Elvis Nuno"),
        ("__license__", some "MIT")] := by
  have h1 := lookup_foldl_private core.exports hpub
    (setVar (setVar (setVar [] "__version__" "0.1.0") "__author__" "Elvis Nuno")
      "__license__" "MIT") "__version__" (by decide)
  have h2 := lookup_foldl_private core.exports hpub
    (setVar (setVar (setVar [] "__version__" "0.1.0") "__author__" "Elvis Nuno")
      "__license__" "MIT") "__author__" (by decide)
  have h3 := lookup_foldl_private core.exports hpub
    (setVar (setVar (setVar [] "__version__" "0.1.0") "__author__" "Elvis Nuno")
      "__license__" "MIT") "__license__" (by decide)
  simp only [srcStar, srcInit, himp, if_true, Except.toOption, Option.map,
    starImport, List.map, h1, h2, h3]
  decide

theorem star_import_bindings_witness :
    (CoreEnv.mk true [("connect", "fn")]).importable = true ∧
      srcStar (CoreEnv.mk true [("connect", "fn")]) = some
        [("__version__", some "0.1.0"), ("__author__", some "Elvis Nuno"),
          ("__license__", some "MIT")] :=
  ⟨rfl, star_import_bindings (CoreEnv.mk true [("connect", "fn")]) rfl
    (by intro p hp; simp at hp; rw [hp]; decide)⟩

/-! ## APDU Codec (`src.core`, modelled) -/

/-- Modelled from the spec: an APDU Command — "{class byte, instruction byte,
param1, param2, data (ordered byte sequence, possibly empty), expected
response length}. Immutable once constructed." The unseen `src.core` codec
is absent from the sources. -/
structure Command where
  cla : Nat
  ins : Nat
  p1 : Nat
  p2 : Nat
  data : List Nat
  le : Option Nat
  deriving DecidableEq, Repr

/-- Modelled from the spec: one transport frame carrying an APDU header, a
payload chunk of at most the transport's frame budget, and (for the final
frame of a chain) the expected response length. -/
structure Frame where
  cla : Nat
  ins : Nat
  p1 : Nat
  p2 : Nat
  payload : List Nat
  le : Option Nat
  deriving DecidableEq, Repr

/-- Modelled from the spec: the standard "more data follows" class-byte
convention marks chaining in bit 4 (mask `0x10`) of the class byte. -/
def chainBit : Nat := 16

/-- Whether a class byte carries the "more data follows" chain marker. -/
def hasChainBit (cla : Nat) : Bool := cla.testBit 4

/-- Modelled from the spec: codec-level failures — "fails(MalformedFrame,
IncompleteChain)". -/
inductive CodecError where
  | malformedFrame
  | incompleteChain
  deriving DecidableEq, Repr

/-- Modelled from the spec: split command data into payload chunks of at most
`maxLen` bytes, "each frame carrying up to the maximum payload and the final
frame carrying the remainder"; zero-length data yields one empty chunk. -/
def chunkData (maxLen : Nat) (d : List Nat) : List (List Nat) :=
  if d.length ≤ maxLen ∨ maxLen = 0 then [d]
  else d.take maxLen :: chunkData maxLen (d.drop maxLen)
termination_by d.length
decreasing_by
  simp only [List.length_drop]
  omega

/-- Modelled from the spec: turn the chunks of one command into its ordered
frame sequence — every frame but the last carries the chain marker and no
expected-length field; the final frame carries the original class byte and
the expected response length. -/
def buildFrames (cla ins p1 p2 : Nat) (le : Option Nat) : List (List Nat) → List Frame
  | [] => []
  | [chunk] => [⟨cla, ins, p1, p2, chunk, le⟩]
  | chunk :: c2 :: rest =>
      ⟨cla ||| chainBit, ins, p1, p2, chunk, none⟩ :: buildFrames cla ins p1 p2 le (c2 :: rest)

/-- Modelled from the spec: `encode(APDU Command) -> ordered sequence of
frames`, chaining when the data exceeds the single-frame payload limit. -/
def encode (maxLen : Nat) (c : Command) : List Frame :=
  buildFrames c.cla c.ins c.p1 c.p2 c.le (chunkData maxLen c.data)

/-- Modelled from the spec: reassemble a chained frame sequence back into the
logical command (the card-side/loopback view of decoding): chained frames
must agree with the final frame's header and carry no expected length;
a dangling chain marker is an `IncompleteChain`, an inconsistent header a
`MalformedFrame`. -/
def decodeCommand : List Frame → Except CodecError Command
  | [] => Except.error CodecError.incompleteChain
  | [f] =>
      if hasChainBit f.cla then Except.error CodecError.incompleteChain
      else Except.ok ⟨f.cla, f.ins, f.p1, f.p2, f.payload, f.le⟩
  | f :: f2 :: rest =>
      if hasChainBit f.cla then
        match decodeCommand (f2 :: rest) with
        | Except.error e => Except.error e
        | Except.ok c =>
            if f.cla = c.cla ||| chainBit ∧ f.ins = c.ins ∧ f.p1 = c.p1 ∧
                f.p2 = c.p2 ∧ f.le = none then
              Except.ok { c with data := f.payload ++ c.data }
            else Except.error CodecError.malformedFrame
      else Except.error CodecError.malformedFrame

theorem hasChainBit_set (cla : Nat) : hasChainBit (cla ||| chainBit) = true := by
  simp only [hasChainBit, chainBit, Nat.testBit_lor, Bool.or_eq_true]
  exact Or.inr (by decide)

theorem chunkData_ne_nil (maxLen : Nat) (d : List Nat) : chunkData maxLen d ≠ [] := by
  rw [chunkData]
  split <;> simp

theorem chunkData_join (maxLen : Nat) (d : List Nat) :
    (chunkData maxLen d).flatten = d := by
  generalize hn : d.length = n
  induction n using Nat.strong_induction_on generalizing d with
  | _ n ih =>
      rw [chunkData]
      split
      · simp
      · rename_i h
        have hlt : (List.drop maxLen d).length < d.length := by
          simp only [List.length_drop]
          omega
        rw [List.flatten_cons, ih (List.drop maxLen d).length (hn ▸ hlt) _ rfl]
        exact List.take_append_drop maxLen d

theorem decode_buildFrames (cla ins p1 p2 : Nat) (le : Option Nat)
    (hc : hasChainBit cla = false) :
    ∀ chunks : List (List Nat), chunks ≠ [] →
      decodeCommand (buildFrames cla ins p1 p2 le chunks) =
        Except.ok ⟨cla, ins, p1, p2, chunks.flatten, le⟩ := by
  intro chunks
  induction chunks with
  | nil => intro h; exact absurd rfl h
  | cons chunk rest ih =>
      intro _
      cases rest with
      | nil => simp [buildFrames, decodeCommand, hc]
      | cons c2 r =>
          have hrec := ih (by simp)
          have hne : buildFrames cla ins p1 p2 le (c2 :: r) ≠ [] := by
            cases r <;> simp [buildFrames]
          cases hb : buildFrames cla ins p1 p2 le (c2 :: r) with
          | nil => exact absurd hb hne
          | cons g gs =>
              rw [hb] at hrec
              show decodeCommand
                  (⟨cla ||| chainBit, ins, p1, p2, chunk, none⟩ ::
                    buildFrames cla ins p1 p2 le (c2 :: r)) = _
              rw [hb]
              simp [decodeCommand, hasChainBit_set, hrec]

/-- C2: round-trip law — for every well-formed APDU command (class byte
without the chain marker) and every positive frame budget, decoding the
encoding through a loopback reconstructs the original logical command, for
command data of any length (0, 1, exactly one frame, or multi-frame
chained sizes). -/
theorem decode_encode_roundtrip (maxLen : Nat) (c : Command)
    (hm : 0 < maxLen) (hc : hasChainBit c.cla = false) :
    decodeCommand (encode maxLen c) = Except.ok c := by
  unfold encode
  rw [decode_buildFrames c.cla c.ins c.p1 c.p2 c.le hc _ (chunkData_ne_nil maxLen c.data)]
  rw [chunkData_join]

theorem decode_encode_roundtrip_witness :
    (0 : Nat) < 4 ∧ hasChainBit (0 : Nat) = false ∧
      decodeCommand (encode 4 ⟨0, 164, 4, 0, [1, 2, 3, 4, 5, 6, 7, 8, 9], some 0⟩) =
        Except.ok ⟨0, 164, 4, 0, [1, 2, 3, 4, 5, 6, 7, 8, 9], some 0⟩ :=
  ⟨by decide, by decide,
    decode_encode_roundtrip 4 ⟨0, 164, 4, 0, [1, 2, 3, 4, 5, 6, 7, 8, 9], some 0⟩
      (by decide) (by decide)⟩

/-! ## Status words and chained-response reassembly (`src.core`, modelled) -/

/-- Modelled from the spec: "Status word `0x9000` denotes success". -/
def swSuccess : Nat := 0x9000

/-- Modelled from the spec: the continuation status-word family "`0x61XX`,
remaining-byte count in low byte". -/
def isContinuation (sw : Nat) : Bool := sw / 256 = 0x61

/-- Modelled from the spec: an APDU Response — "{data (ordered byte
sequence), status word (two bytes)}". -/
structure Response where
  data : List Nat
  sw : Nat
  deriving DecidableEq, Repr

/-- Modelled from the spec: session-level failures — the local
no-application-selected error, `ApplicationNotPresent`, `IncompleteChain`
for a chain that never finishes, and `DeviceError` "carrying the raw status
word for diagnostics". -/
inductive SessionError where
  | noApplicationSelected
  | applicationNotPresent
  | incompleteChain
  | deviceError (sw : Nat)
  deriving DecidableEq, Repr

/-- Modelled from the spec: the "bounded iteration count (guard against a
misbehaving device sending infinite continuations)" of the reassembly loop. -/
def maxChain : Nat := 16

/-- The "get response" instruction byte. -/
def insGetResponse : Nat := 0xC0

/-- Modelled from the spec: the "get response" follow-up command "for the
remaining byte count" announced in the low byte of a `0x61XX` status word. -/
def getResponseCmd (remaining : Nat) : Command :=
  ⟨0, insGetResponse, 0, 0, [], some remaining⟩

/-- Modelled from the spec: the chained-response reassembly loop — "an
explicit loop with an accumulator and a bounded iteration count".  `dev` is
the device behaviour (response to each issued command), `fuel` the remaining
iteration budget, `acc` the accumulated payload, `r` the response under
examination.  Returns the outcome together with the transcript of issued
"get response" follow-up commands. -/
def reassembleLoop (dev : Command → Response) (fuel : Nat) (acc : List Nat)
    (r : Response) : Except SessionError Response × List Command :=
  if r.sw = swSuccess then (Except.ok ⟨acc ++ r.data, swSuccess⟩, [])
  else if isContinuation r.sw then
    match fuel with
    | 0 => (Except.error SessionError.incompleteChain, [])
    | Nat.succ f =>
        let c := getResponseCmd (r.sw % 256)
        let res := reassembleLoop dev f (acc ++ r.data) (dev c)
        (res.1, c :: res.2)
  else (Except.error (SessionError.deviceError r.sw), [])

/-- Reassembly of a first device response, with the session's full iteration
budget and an empty accumulator. -/
def reassemble (dev : Command → Response) (r : Response) :
    Except SessionError Response × List Command :=
  reassembleLoop dev maxChain [] r

theorem reassembleLoop_calls_le (dev : Command → Response) :
    ∀ (fuel : Nat) (acc : List Nat) (r : Response),
      (reassembleLoop dev fuel acc r).2.length ≤ fuel := by
  intro fuel
  induction fuel with
  | zero =>
      intro acc r
      rw [reassembleLoop]
      split
      · simp
      · split <;> simp
  | succ f ih =>
      intro acc r
      rw [reassembleLoop]
      split
      · simp
      · split
        · simpa using Nat.succ_le_succ
            (ih (acc ++ r.data) (dev (getResponseCmd (r.sw % 256))))
        · simp

/-- C9: chained-response reconstruction always terminates with a bounded
number of "get response" follow-ups: the loop is fuelled, so for every device
behaviour the transcript of follow-ups has length at most the budget
(`maxChain` for a session-level reassembly); a misbehaving device that
signals continuation forever makes the loop stop with `IncompleteChain`
after exactly `maxChain` follow-ups. -/
theorem reassembly_bounded (dev : Command → Response) (fuel : Nat)
    (acc : List Nat) (r : Response) :
    (reassembleLoop dev fuel acc r).2.length ≤ fuel ∧
      (reassemble dev r).2.length ≤ maxChain ∧
      (reassemble (fun _ => Response.mk [] 0x6100) (Response.mk [] 0x6100)).1 =
        Except.error SessionError.incompleteChain ∧
      (reassemble (fun _ => Response.mk [] 0x6100) (Response.mk [] 0x6100)).2.length =
        maxChain :=
  ⟨reassembleLoop_calls_le dev fuel acc r,
    reassembleLoop_calls_le dev maxChain [] r,
    by rfl, by rfl⟩

/-! ## Session (`src.core`, modelled) -/

/-- Modelled from the spec: the closed set of on-device applications —
"(OTP, PIV, FIDO2, management)". -/
inductive App where
  | otp
  | piv
  | fido2
  | management
  deriving DecidableEq, Repr

/-- Modelled from the spec: a Session — "{owned Device Handle, currently
selected application (nullable, one of a closed set), sequence counter for
chained transfers}".  The handle is the device identifier. -/
structure Session where
  handle : Nat
  selectedApp : Option App
  seqCounter : Nat
  deriving DecidableEq, Repr

/-- The "select application" instruction byte. -/
def insSelect : Nat := 0xA4

/-- Whether a command is itself a select. -/
def isSelect (c : Command) : Bool := c.ins = insSelect

/-- Modelled from the spec: a one-byte application identifier used in the
select command's data field. -/
def appAid : App → Nat
  | App.otp => 1
  | App.piv => 2
  | App.fido2 => 3
  | App.management => 4

/-- The select-application APDU for a given application. -/
def selectCmd (a : App) : Command := ⟨0, insSelect, 4, 0, [appAid a], some 0⟩

/-- The "application/file not found" status word. -/
def swNotFound : Nat := 0x6A82

/-- Modelled from the spec: `select(application_id) ->
fails(ApplicationNotPresent, DeviceError)` — an explicit, observable switch
of the selected application; on success the session records the new
application; on failure the selection is untouched.  Returns the outcome and
the number of transport exchanges performed. -/
def select (dev : Command → Response) (s : Session) (a : App) :
    Except SessionError Session × Nat :=
  let r := dev (selectCmd a)
  if r.sw = swSuccess then (Except.ok { s with selectedApp := some a }, 1)
  else if r.sw = swNotFound then (Except.error SessionError.applicationNotPresent, 1)
  else (Except.error (SessionError.deviceError r.sw), 1)

/-- Modelled from the spec: `send(APDU Command) -> APDU Response |
fails(DeviceError, IOError)`; "fails fast with a local error (no device
round-trip) if no application is selected and the command is not itself a
select"; chained responses are reassembled via the bounded loop; the
sequence counter advances by the number of chained follow-ups.  Returns the
outcome and the number of transport exchanges performed. -/
def send (dev : Command → Response) (s : Session) (c : Command) :
    Except SessionError (Response × Session) × Nat :=
  if s.selectedApp = none ∧ isSelect c = false then
    (Except.error SessionError.noApplicationSelected, 0)
  else
    let r := dev c
    let res := reassemble dev r
    match res.1 with
    | Except.error e => (Except.error e, 1 + res.2.length)
    | Except.ok resp =>
        (Except.ok (resp, { s with seqCounter := s.seqCounter + res.2.length }),
          1 + res.2.length)

/-- C3: whenever no application is selected and the command is not itself a
select, `send` fails with the local no-application-selected error and
performs zero transport exchanges. -/
theorem send_fails_fast_without_selection (dev : Command → Response)
    (s : Session) (c : Command)
    (hsel : s.selectedApp = none) (hns : isSelect c = false) :
    send dev s c = (Except.error SessionError.noApplicationSelected, 0) := by
  simp [send, hsel, hns]

theorem send_fails_fast_without_selection_witness :
    (Session.mk 0 none 0).selectedApp = none ∧
      isSelect ⟨0, 1, 0, 0, [], none⟩ = false ∧
      send (fun _ => Response.mk [] swSuccess) (Session.mk 0 none 0)
          ⟨0, 1, 0, 0, [], none⟩ =
        (Except.error SessionError.noApplicationSelected, 0) :=
  ⟨rfl, by decide,
    send_fails_fast_without_selection (fun _ => Response.mk [] swSuccess)
      (Session.mk 0 none 0) ⟨0, 1, 0, 0, [], none⟩ rfl (by decide)⟩

/-- C4: against a device whose follow-up responses are final, a first
response in the continuation family `0x61XX` (in particular `0x6182`) makes
the session issue exactly one "get response" follow-up, for the remaining
byte count in the status word's low byte, and return a reassembled response
whose data is the concatenation of the two frames' payloads; at the `send`
level this is one original exchange plus exactly one follow-up. -/
theorem continuation_single_get_response (d1 d2 : List Nat) (sw : Nat)
    (s : Session) (a : App) (c : Command)
    (hsw : isContinuation sw = true)
    (hsel : s.selectedApp = some a) (hc : c.ins ≠ insGetResponse) :
    reassemble
        (fun q => if q.ins = insGetResponse then Response.mk d2 swSuccess
          else Response.mk d1 sw)
        (Response.mk d1 sw) =
      (Except.ok ⟨d1 ++ d2, swSuccess⟩, [getResponseCmd (sw % 256)]) ∧
    (send
        (fun q => if q.ins = insGetResponse then Response.mk d2 swSuccess
          else Response.mk d1 sw)
        s c).1 =
      Except.ok (⟨d1 ++ d2, swSuccess⟩, { s with seqCounter := s.seqCounter + 1 }) ∧
    (send
        (fun q => if q.ins = insGetResponse then Response.mk d2 swSuccess
          else Response.mk d1 sw)
        s c).2 = 2 := by
  have hne : sw ≠ 36864 := by
    simp only [isContinuation, decide_eq_true_eq] at hsw
    omega
  have hra : reassemble
      (fun q => if q.ins = insGetResponse then Response.mk d2 swSuccess
        else Response.mk d1 sw)
      (Response.mk d1 sw) =
      (Except.ok ⟨d1 ++ d2, swSuccess⟩, [getResponseCmd (sw % 256)]) := by
    rw [reassemble, show maxChain = Nat.succ 15 from rfl, reassembleLoop]
    simp [hne, hsw, getResponseCmd, reassembleLoop, swSuccess]
  refine ⟨hra, ?_, ?_⟩ <;>
    · rw [send]
      simp [hsel, hc, hra]

theorem continuation_single_get_response_witness :
    isContinuation 0x6182 = true ∧
      (Session.mk 7 (some App.otp) 0).selectedApp = some App.otp ∧
      (5 : Nat) ≠ insGetResponse ∧
      reassemble
          (fun q => if q.ins = insGetResponse then Response.mk [3, 4] swSuccess
            else Response.mk [1, 2] 0x6182)
          (Response.mk [1, 2] 0x6182) =
        (Except.ok ⟨[1, 2, 3, 4], swSuccess⟩, [getResponseCmd 0x82]) :=
  ⟨by decide, rfl, by decide,
    (continuation_single_get_response [1, 2] [3, 4] 0x6182
      (Session.mk 7 (some App.otp) 0) App.otp ⟨0, 5, 0, 0, [], none⟩
      (by decide) rfl (by decide)).1⟩

/-- Modelled from the spec: the operations a caller can perform on a
session — an explicit application switch or a command exchange. -/
inductive Op where
  | doSelect (a : App)
  | doSend (c : Command)
  deriving DecidableEq, Repr

/-- One session operation: the session evolves on success and is left as it
was on failure. -/
def stepOp (dev : Command → Response) (s : Session) : Op → Session
  | Op.doSelect a =>
      match (select dev s a).1 with
      | Except.ok s' => s'
      | Except.error _ => s
  | Op.doSend c =>
      match (send dev s c).1 with
      | Except.ok (_, s') => s'
      | Except.error _ => s

/-- Running a sequence of session operations. -/
def runOps (dev : Command → Response) (s : Session) (ops : List Op) : Session :=
  ops.foldl (stepOp dev) s

theorem send_preserves_selection (dev : Command → Response) (s : Session)
    (c : Command) (r : Response) (s' : Session)
    (h : (send dev s c).1 = Except.ok (r, s')) :
    s'.selectedApp = s.selectedApp := by
  simp only [send] at h
  split at h
  · simp at h
  · cases hr : (reassemble dev (dev c)).1 with
    | error e =>
        rw [hr] at h
        simp at h
    | ok resp =>
        rw [hr] at h
        simp only [Except.ok.injEq, Prod.mk.injEq] at h
        rw [← h.2]

theorem stepOp_send_selection (dev : Command → Response) (s : Session)
    (c : Command) :
    (stepOp dev s (Op.doSend c)).selectedApp = s.selectedApp := by
  rw [stepOp]
  split
  · rename_i r s' h
    exact send_preserves_selection dev s c r s' h
  · rfl

/-- C6: selection discipline of a Session.  The selected application is a
single nullable field, so at most one application is selected at a time;
it changes only through the explicit `select` operation — a successful
`send` returns a session with the same selection, and a whole operation
sequence containing no select leaves the selection untouched; and when
nothing is selected, a non-select command fails locally instead of being
sent, so the null state never lets a command through implicitly. -/
theorem session_selection_invariant :
    (∀ (s : Session) (a b : App),
        s.selectedApp = some a → s.selectedApp = some b → a = b) ∧
    (∀ (dev : Command → Response) (s : Session) (c : Command) (r : Response)
        (s' : Session), (send dev s c).1 = Except.ok (r, s') →
        s'.selectedApp = s.selectedApp) ∧
    (∀ (dev : Command → Response) (s : Session) (ops : List Op),
        (∀ o ∈ ops, ∀ a : App, o ≠ Op.doSelect a) →
        (runOps dev s ops).selectedApp = s.selectedApp) ∧
    (∀ (dev : Command → Response) (s : Session) (c : Command),
        s.selectedApp = none → isSelect c = false →
        (send dev s c).1 = Except.error SessionError.noApplicationSelected) := by
  refine ⟨?_, send_preserves_selection, ?_, ?_⟩
  · intro s a b ha hb
    rw [ha] at hb
    exact (Option.some.injEq a b ▸ hb).symm ▸ rfl
  · intro dev s ops
    induction ops generalizing s with
    | nil => intro _; rfl
    | cons o rest ih =>
        intro h
        have ho : ∀ a : App, o ≠ Op.doSelect a :=
          fun a => h o (List.mem_cons_self o rest) a
        have hstep : (stepOp dev s o).selectedApp = s.selectedApp := by
          cases o with
          | doSelect a => exact absurd rfl (ho a)
          | doSend c => exact stepOp_send_selection dev s c
        rw [runOps, List.foldl_cons, ← runOps,
          ih (stepOp dev s o) (fun q hq a => h q (List.mem_cons_of_mem o hq) a), hstep]
  · intro dev s c hsel hns
    simp [send, hsel, hns]

theorem session_selection_invariant_witness :
    (runOps (fun _ => Response.mk [] swSuccess) (Session.mk 3 (some App.piv) 0)
        [Op.doSend ⟨0, 1, 0, 0, [], none⟩]).selectedApp = some App.piv ∧
      (send (fun _ => Response.mk [] swSuccess) (Session.mk 3 none 0)
          ⟨0, 1, 0, 0, [], none⟩).1 =
        Except.error SessionError.noApplicationSelected :=
  ⟨session_selection_invariant.2.2.1 (fun _ => Response.mk [] swSuccess)
      (Session.mk 3 (some App.piv) 0) [Op.doSend ⟨0, 1, 0, 0, [], none⟩]
      (by intro o ho a; simp at ho; rw [ho]; simp),
    session_selection_invariant.2.2.2 (fun _ => Response.mk [] swSuccess)
      (Session.mk 3 none 0) ⟨0, 1, 0, 0, [], none⟩ rfl (by decide)⟩

/-! ## Transport retry policy (`src.core`, modelled) -/

/-- Modelled from the spec: transport-level failures —
"fails(IOError, Timeout, Disconnected)". -/
inductive TransportError where
  | ioError
  | timeout
  | disconnected
  deriving DecidableEq, Repr

/-- Modelled from the spec: the bound on transport attempts per exchange
("retry on Timeout with bounded attempts"). -/
def maxAttempts : Nat := 3

/-- Modelled from the spec: the retrying exchange loop over a transport
behaviour `t` (result of the i-th raw call, 1-indexed).  Only `Timeout` is
ever retried, and only while retries remain; every other failure —
`Disconnected` in particular — is surfaced immediately.  Returns the final
outcome and the number of raw transport calls made. -/
def exchangeRetry (t : Nat → Except TransportError (List Nat))
    (attempt retriesLeft : Nat) : Except TransportError (List Nat) × Nat :=
  match t attempt with
  | Except.ok r => (Except.ok r, 1)
  | Except.error e =>
      if e = TransportError.timeout then
        match retriesLeft with
        | 0 => (Except.error e, 1)
        | Nat.succ k =>
            let res := exchangeRetry t (attempt + 1) k
            (res.1, res.2 + 1)
      else (Except.error e, 1)
termination_by retriesLeft

/-- A full exchange: first call is attempt 1, with `maxAttempts - 1` retries
available. -/
def exchange (t : Nat → Except TransportError (List Nat)) :
    Except TransportError (List Nat) × Nat :=
  exchangeRetry t 1 (maxAttempts - 1)

theorem exchangeRetry_disconnected (t : Nat → Except TransportError (List Nat)) :
    ∀ (n k attempt : Nat),
      (∀ i, i < n → t (attempt + i) = Except.error TransportError.timeout) →
      t (attempt + n) = Except.error TransportError.disconnected →
      n ≤ k →
      exchangeRetry t attempt k = (Except.error TransportError.disconnected, n + 1) := by
  intro n
  induction n with
  | zero =>
      intro k attempt _ hd _
      rw [exchangeRetry]
      rw [Nat.add_zero] at hd
      rw [hd]
      simp
  | succ m ih =>
      intro k attempt hto hd hk
      have h0 : t attempt = Except.error TransportError.timeout := by
        have := hto 0 (Nat.succ_pos m)
        rwa [Nat.add_zero] at this
      cases k with
      | zero => exact absurd hk (by omega)
      | succ k' =>
          rw [exchangeRetry, h0]
          have hrec := ih k' (attempt + 1)
            (fun i hi => by
              have h := hto (i + 1) (Nat.succ_lt_succ hi)
              have heq : attempt + 1 + i = attempt + (i + 1) := by omega
              rw [heq]
              exact h)
            (by
              have heq : attempt + 1 + m = attempt + (m + 1) := by omega
              rw [heq]
              exact hd)
            (by omega)
          simp [hrec]

theorem exchangeRetry_calls_le (t : Nat → Except TransportError (List Nat)) :
    ∀ (k attempt : Nat), (exchangeRetry t attempt k).2 ≤ k + 1 := by
  intro k
  induction k with
  | zero =>
      intro attempt
      rw [exchangeRetry]
      split
      · simp
      · split <;> simp
  | succ k' ih =>
      intro attempt
      rw [exchangeRetry]
      split
      · simp
      · split
        · have := ih (attempt + 1)
          simpa using Nat.succ_le_succ this
        · simp

/-- C5: retry policy of `exchange`.  A `Disconnected` on attempt N (the
first N-1 raw calls timing out, for any reachable N — in particular N = 1
and N = 3) is surfaced immediately as `Disconnected` after exactly N raw
calls, with no retry; any first-call failure other than `Timeout` is
surfaced after exactly one call (nothing but `Timeout` is ever retried);
and the number of raw calls is always bounded by `maxAttempts`, so
`Timeout` is retried only a bounded number of times. -/
theorem exchange_retry_policy :
    (∀ (t : Nat → Except TransportError (List Nat)) (n : Nat),
        1 ≤ n → n ≤ maxAttempts →
        (∀ i, 1 ≤ i → i < n → t i = Except.error TransportError.timeout) →
        t n = Except.error TransportError.disconnected →
        exchange t = (Except.error TransportError.disconnected, n)) ∧
    (∀ (t : Nat → Except TransportError (List Nat)) (e : TransportError),
        e ≠ TransportError.timeout → t 1 = Except.error e →
        exchange t = (Except.error e, 1)) ∧
    (∀ t : Nat → Except TransportError (List Nat),
        (exchange t).2 ≤ maxAttempts) := by
  refine ⟨?_, ?_, ?_⟩
  · intro t n h1 hmax hto hd
    rw [exchange]
    have := exchangeRetry_disconnected t (n - 1) (maxAttempts - 1) 1
      (fun i hi => hto (1 + i) (by omega) (by omega))
      (by rwa [show 1 + (n - 1) = n by omega])
      (by simp only [maxAttempts] at hmax ⊢; omega)
    rw [this]
    congr 1
    omega
  · intro t e he ht
    rw [exchange, exchangeRetry, ht]
    simp [he]
  · intro t
    rw [exchange]
    exact exchangeRetry_calls_le t (maxAttempts - 1) 1

theorem exchange_retry_policy_witness :
    exchange (fun i => if i = 1 ∨ i = 2 then Except.error TransportError.timeout
        else Except.error TransportError.disconnected) =
      (Except.error TransportError.disconnected, 3) ∧
    exchange (fun _ => Except.error TransportError.disconnected) =
      (Except.error TransportError.disconnected, 1) :=
  ⟨exchange_retry_policy.1
      (fun i => if i = 1 ∨ i = 2 then Except.error TransportError.timeout
        else Except.error TransportError.disconnected)
      3 (by decide) (by decide)
      (by intro i h1 h3; interval_cases i <;> rfl) (by rfl),
    exchange_retry_policy.1
      (fun _ => Except.error TransportError.disconnected)
      1 (by decide) (by decide) (by intro i h1 h3; omega) (by rfl)⟩

/-! ## Device Registry (`src.core`, modelled) -/

/-- Modelled from the spec: a device selector — "a serial number, transport
path, or \"first available\" wildcard" (serial and path are both rendered as
a numeric identifier here). -/
inductive Selector where
  | wildcard
  | serial (sn : Nat)
  deriving DecidableEq, Repr

/-- Modelled from the spec: registry-level failures —
"fails(NotFound, Ambiguous)". -/
inductive RegistryError where
  | notFound
  | ambiguous
  deriving DecidableEq, Repr

/-- Whether a connected device (by identifier) matches a selector; the
wildcard matches every device. -/
def matchesSelector (sel : Selector) (d : Nat) : Bool :=
  match sel with
  | Selector.wildcard => true
  | Selector.serial sn => d = sn

/-- A fresh session bound to a device identifier: no application selected
yet, sequence counter zero. -/
def newSession (d : Nat) : Session := ⟨d, none, 0⟩

/-- Modelled from the spec: `open(selector) -> Session | fails(NotFound,
Ambiguous)` — enumerate the connected devices, keep those matching the
selector; none matching is `NotFound`, a unique match yields a session bound
to that device, several matches are underspecified and `Ambiguous`. -/
def openDevice (devices : List Nat) (sel : Selector) :
    Except RegistryError Session :=
  match devices.filter (matchesSelector sel) with
  | [] => Except.error RegistryError.notFound
  | [d] => Except.ok (newSession d)
  | _ :: _ :: _ => Except.error RegistryError.ambiguous

/-- C7: opening with the first-available wildcard fails with `Ambiguous`
whenever more than one device is connected (the caller did not
disambiguate), and against exactly one enumerated device returns a session
bound to that device's identifier. -/
theorem open_wildcard_behaviour (devices : List Nat) (d : Nat)
    (hmany : 2 ≤ devices.length) :
    openDevice devices Selector.wildcard = Except.error RegistryError.ambiguous ∧
    openDevice [d] Selector.wildcard = Except.ok (newSession d) ∧
    (newSession d).handle = d := by
  have hfilter : devices.filter (matchesSelector Selector.wildcard) = devices :=
    List.filter_eq_self.mpr (fun a _ => rfl)
  refine ⟨?_, by rfl, rfl⟩
  rw [openDevice, hfilter]
  match devices, hmany with
  | d1 :: d2 :: rest, _ => rfl

theorem open_wildcard_behaviour_witness :
    (2 : Nat) ≤ ([10, 11] : List Nat).length ∧
      openDevice [10, 11] Selector.wildcard = Except.error RegistryError.ambiguous ∧
      openDevice [10] Selector.wildcard = Except.ok (newSession 10) :=
  ⟨by decide, (open_wildcard_behaviour [10, 11] 10 (by decide)).1,
    (open_wildcard_behaviour [10, 11] 10 (by decide)).2.1⟩

/-! ## OTP Slot Manager (`src.core`, modelled) -/

/-- Modelled from the spec: a Slot Descriptor's configuration payload —
"secret material, touch/require-button policy". -/
structure SlotConfig where
  secret : List Nat
  touchRequired : Bool
  deriving DecidableEq, Repr

/-- Modelled from the spec: the partial read-back of a slot — "read-back is
partial by device policy (secrets are typically never returned, only
metadata)".  Carries no secret field at all. -/
structure SlotMeta where
  configured : Bool
  touchRequired : Bool
  deriving DecidableEq, Repr

/-- Modelled from the spec: OTP-manager failures — the local
`ValidationError` ("caller-supplied payload rejected before any I/O"). -/
inductive OtpError where
  | validationError
  deriving DecidableEq, Repr

/-- The on-device OTP application state: what each slot holds. -/
def OtpState : Type := Nat → Option SlotConfig

/-- Modelled from the spec: the OTP manager "validates secret length and
encoding before transmission" — a 20-byte secret, every entry a byte. -/
def validSecret (s : List Nat) : Bool := s.length == 20 && s.all (· < 256)

/-- Modelled from the spec: the OTP application "supports at least two
independent slots" — slot index 1 or 2. -/
def validSlot (n : Nat) : Bool := n == 1 || n == 2

/-- Modelled from the spec: `configure(slot, payload)` — validation failures
are local; a valid configuration writes the slot. -/
def configure (st : OtpState) (slot : Nat) (secret : List Nat) (touch : Bool) :
    Except OtpError OtpState :=
  if validSlot slot && validSecret secret then
    Except.ok (fun n => if n = slot then some ⟨secret, touch⟩ else st n)
  else Except.error OtpError.validationError

/-- Modelled from the spec: `read_metadata(slot)` — returns only whether the
slot is configured and its touch policy, never the secret ("configuration is
write-only (device never returns the secret back)"). -/
def readMetadata (st : OtpState) (slot : Nat) : Except OtpError SlotMeta :=
  if validSlot slot then
    match st slot with
    | none => Except.ok ⟨false, false⟩
    | some cfg => Except.ok ⟨true, cfg.touchRequired⟩
  else Except.error OtpError.validationError

/-- Modelled from the spec: `delete(slot)` — clears a valid slot. -/
def deleteSlot (st : OtpState) (slot : Nat) : Except OtpError OtpState :=
  if validSlot slot then Except.ok (fun n => if n = slot then none else st n)
  else Except.error OtpError.validationError

/-- The OTP manager's capability set, as an operation datatype. -/
inductive OtpOp where
  | configure (slot : Nat) (secret : List Nat) (touch : Bool)
  | readMeta (slot : Nat)
  | delete (slot : Nat)

/-- Run a sequence of OTP-manager operations, collecting every
`read_metadata` result (all the manager ever reveals about the slots). -/
def runOtp (st : OtpState) : List OtpOp → List (Except OtpError SlotMeta)
  | [] => []
  | op :: rest =>
      match op with
      | OtpOp.configure slot secret touch =>
          match configure st slot secret touch with
          | Except.ok st' => runOtp st' rest
          | Except.error _ => runOtp st rest
      | OtpOp.readMeta slot => readMetadata st slot :: runOtp st rest
      | OtpOp.delete slot =>
          match deleteSlot st slot with
          | Except.ok st' => runOtp st' rest
          | Except.error _ => runOtp st rest

/-- The secret-free view of a slot's contents. -/
def metaView (c : SlotConfig) : Bool := c.touchRequired

/-- Two OTP states that agree on everything except secret material. -/
def MetaEq (st1 st2 : OtpState) : Prop :=
  ∀ n, (st1 n).map metaView = (st2 n).map metaView

theorem readMetadata_congr (st1 st2 : OtpState) (h : MetaEq st1 st2) (slot : Nat) :
    readMetadata st1 slot = readMetadata st2 slot := by
  rw [readMetadata, readMetadata]
  split
  · have hs := h slot
    cases h1 : st1 slot <;> cases h2 : st2 slot <;>
      rw [h1, h2] at hs <;> simp [metaView] at hs <;> simp [hs]
  · rfl

theorem runOtp_congr (ops : List OtpOp) :
    ∀ (st1 st2 : OtpState), MetaEq st1 st2 → runOtp st1 ops = runOtp st2 ops := by
  induction ops with
  | nil => intro st1 st2 _; rfl
  | cons op rest ih =>
      intro st1 st2 h
      cases op with
      | configure slot secret touch =>
          rw [runOtp, runOtp]
          simp only [configure]
          by_cases hv : (validSlot slot && validSecret secret) = true
          · simp only [if_pos hv]
            exact ih _ _ (fun n => by
              by_cases hn : n = slot <;> simp [hn, h n])
          · simp only [if_neg hv]
            exact ih _ _ h
      | readMeta slot =>
          rw [runOtp, runOtp, readMetadata_congr st1 st2 h slot, ih _ _ h]
      | delete slot =>
          rw [runOtp, runOtp]
          simp only [deleteSlot]
          by_cases hv : validSlot slot = true
          · simp only [if_pos hv]
            exact ih _ _ (fun n => by
              by_cases hn : n = slot <;> simp [hn, h n])
          · simp only [if_neg hv]
            exact ih _ _ h

/-- C8: OTP configuration is write-only with respect to secrets.  Writing
two different valid secrets to the same valid slot yields states whose
entire subsequent observable behaviour — every `read_metadata` result of
every later operation sequence — is identical, so no metadata ever depends
on (or contains) the secret bytes; immediately after the write,
`read_metadata` returns exactly the configured flag and touch policy,
a value independent of the secret material. -/
theorem otp_secret_write_only (st : OtpState) (slot : Nat)
    (s1 s2 : List Nat) (touch : Bool) (ops : List OtpOp)
    (hs : validSlot slot = true)
    (h1 : validSecret s1 = true) (h2 : validSecret s2 = true) :
    ∃ st1 st2,
      configure st slot s1 touch = Except.ok st1 ∧
      configure st slot s2 touch = Except.ok st2 ∧
      runOtp st1 ops = runOtp st2 ops ∧
      readMetadata st1 slot = Except.ok ⟨true, touch⟩ ∧
      readMetadata st2 slot = Except.ok ⟨true, touch⟩ := by
  refine ⟨fun n => if n = slot then some ⟨s1, touch⟩ else st n,
    fun n => if n = slot then some ⟨s2, touch⟩ else st n,
    by simp [configure, hs, h1], by simp [configure, hs, h2], ?_, ?_, ?_⟩
  · exact runOtp_congr ops _ _ (fun n => by
      by_cases hn : n = slot <;> simp [hn, metaView])
  · simp [readMetadata, hs]
  · simp [readMetadata, hs]

theorem otp_secret_write_only_witness :
    validSlot 1 = true ∧
      validSecret (List.replicate 20 7) = true ∧
      validSecret (List.range 20) = true ∧
      ∃ st1 st2,
        configure (fun _ => none) 1 (List.replicate 20 7) false = Except.ok st1 ∧
        configure (fun _ => none) 1 (List.range 20) false = Except.ok st2 ∧
        runOtp st1 [OtpOp.readMeta 1, OtpOp.readMeta 2] =
          runOtp st2 [OtpOp.readMeta 1, OtpOp.readMeta 2] ∧
        readMetadata st1 1 = Except.ok ⟨true, false⟩ ∧
        readMetadata st2 1 = Except.ok ⟨true, false⟩ :=
  ⟨by decide, by decide, by decide,
    otp_secret_write_only (fun _ => none) 1 (List.replicate 20 7) (List.range 20)
      false [OtpOp.readMeta 1, OtpOp.readMeta 2] (by decide) (by decide) (by decide)⟩

end YubikeyTools
